import Mathlib

/-!
# Verification of the DFS-RAG manifest pipeline

A shallow embedding, in Lean 4, of the core data model and operations of the
dfs-rag repository: the SQLite manifest table shared by the bootstrap
(discovery) engine and the ingestion engine, the ingestion repository queries,
the bulk upsert of the bootstrap repository, the directory walker, the ACL
extractor strategies, the ingestion batch processor with its upload retry
loop, the task-status polling loop, and the checkpoint store.

Database state is modelled as a `List` of rows; timestamps are abstract
natural numbers passed in explicitly (`now`); operations that can hit I/O or
database failures take the failure outcome as an explicit argument, so that
every embedded operation is a total computable function.
-/

/-- A row of the `manifest` table (see `bootstrap/database/schema.py`,
`CREATE_TABLE_SQL`).  `id` is omitted: no modelled operation reads it.
Timestamp columns are abstract `Nat` instants; nullable columns are
`Option`-valued.  `ingestion_status` is `Option` because
`get_pending_files` tests `ingestion_status IS NULL`. -/
structure ManifestRow where
  file_path : String
  file_name : String
  parent_dir : String
  size : Option Nat := none
  mtime : Option Nat := none
  raw_acl : Option String := none
  acl_captured : Bool := false
  status : String := "pending"
  ingestion_status : Option String := some "pending"
  ingestion_attempts : Option Nat := some 0
  ingestion_error : Option String := none
  ingested_at : Option Nat := none
  error : Option String := none
  retry_count : Nat := 0
  is_directory : Bool := false
  first_seen : Nat := 0
  last_seen : Nat := 0
  schema_version : Nat := 1
deriving Repr, DecidableEq

/-- The WHERE clause of `IngestionRepository.get_pending_files`
(`ingestion/repository.py` lines 59-69):
`status = 'discovered' AND (ingestion_status IS NULL OR
ingestion_status = 'pending' OR ingestion_status = 'failed')`.
Note: the query does not test `is_directory`. -/
def pendingWhere (r : ManifestRow) : Bool :=
  r.status = "discovered" &&
    (r.ingestion_status = none ||
     r.ingestion_status = some "pending" ||
     r.ingestion_status = some "failed")

/-- The comparison used by `ORDER BY file_path`. -/
def pathLE (a b : ManifestRow) : Prop := a.file_path ≤ b.file_path

instance : DecidableRel pathLE := fun a b =>
  inferInstanceAs (Decidable (a.file_path ≤ b.file_path))

instance : IsTotal ManifestRow pathLE := ⟨fun a b => le_total a.file_path b.file_path⟩

instance : IsTrans ManifestRow pathLE := ⟨fun _ _ _ h h' => le_trans h h'⟩

/-- `IngestionRepository.get_pending_files` (`ingestion/repository.py` lines
39-89): `SELECT ... FROM manifest WHERE <pendingWhere> ORDER BY file_path
LIMIT batch_size OFFSET offset`.  The manifest state is the list of rows;
sorting models `ORDER BY`, and `drop`/`take` model `OFFSET`/`LIMIT`. -/
def get_pending_files (manifest : List ManifestRow) (batch_size offset : Nat) :
    List ManifestRow :=
  (((manifest.filter pendingWhere).insertionSort pathLE).drop offset).take batch_size

/-- A manifest row for a directory that carries discovery status
`discovered` and no ingestion status: a state the `get_pending_files`
query does not exclude, because its WHERE clause never mentions
`is_directory`. -/
def discoveredDirRow : ManifestRow :=
  { file_path := "/share/projects"
    file_name := "projects"
    parent_dir := "/share"
    status := "discovered"
    ingestion_status := none
    is_directory := true }

/-- A regular pending file row used by witnesses. -/
def pendingFileRow : ManifestRow :=
  { file_path := "/share/a.txt"
    file_name := "a.txt"
    parent_dir := "/share"
    size := some 1024
    status := "discovered"
    ingestion_status := some "pending" }

/-- A row already ingested: must never be returned by `get_pending_files`. -/
def completedFileRow : ManifestRow :=
  { file_path := "/share/b.txt"
    file_name := "b.txt"
    parent_dir := "/share"
    status := "discovered"
    ingestion_status := some "completed"
    ingested_at := some 10 }

/-- `IngestionRepository.update_ingestion_status` (`ingestion/repository.py`
lines 91-123): `UPDATE manifest SET ingestion_status = ?,
ingestion_attempts = COALESCE(ingestion_attempts, 0) + 1,
ingestion_error = ?, ingested_at = CASE WHEN ? = 'completed' THEN
CURRENT_TIMESTAMP ELSE ingested_at END WHERE file_path = ?`.
`now` stands for `CURRENT_TIMESTAMP`. -/
def update_ingestion_status (manifest : List ManifestRow)
    (path status : String) (error : Option String) (now : Nat) :
    List ManifestRow :=
  manifest.map fun r =>
    if r.file_path = path then
      { r with
        ingestion_status := some status
        ingestion_attempts := some (r.ingestion_attempts.getD 0 + 1)
        ingestion_error := error
        ingested_at := if status = "completed" then some now else r.ingested_at }
    else r

/-- One call of `update_ingestion_status`, as data, so that sequences of
calls can be quantified over. -/
structure UpdateCall where
  path : String
  status : String
  error : Option String
  now : Nat
deriving Repr, DecidableEq

/-- Apply a sequence of `update_ingestion_status` calls in order. -/
def applyUpdates (manifest : List ManifestRow) : List UpdateCall → List ManifestRow
  | [] => manifest
  | c :: cs =>
      applyUpdates (update_ingestion_status manifest c.path c.status c.error c.now) cs

/-- The two calls of the C2 counterexample: mark `/share/a.txt` completed at
time 5, then failed at time 7 (a retry after completion, which
`update_ingestion_status` does not forbid). -/
def completedThenFailed : List UpdateCall :=
  [{ path := "/share/a.txt", status := "completed", error := none, now := 5 },
   { path := "/share/a.txt", status := "failed", error := some "boom", now := 7 }]

/-- The row produced from `pendingFileRow` by the two calls of
`completedThenFailed`: failed status, two attempts, but `ingested_at`
still carries the timestamp of the earlier completion. -/
def c2FinalRow : ManifestRow :=
  { pendingFileRow with
    ingestion_status := some "failed"
    ingestion_attempts := some 2
    ingestion_error := some "boom"
    ingested_at := some 5 }

/-- SQLite `INSERT OR IGNORE` over a list of VALUES rows, as issued by
`ManifestRepository.bulk_upsert` (`bootstrap/database/repository.py` lines
64-70).  Rows are attempted in order; a row whose `file_path` already exists
in the table (including rows inserted earlier in the same statement, since
`file_path` is UNIQUE) is ignored; the returned count is the statement's
`rowcount` (number of rows actually inserted).  Under SQLite, `OR IGNORE`
swallows every applicable constraint conflict instead of raising, so the
`IntegrityError` fallback of lines 87-103 is unreachable for this schema
(no foreign keys) and is not modelled. -/
def insertOrIgnore : List ManifestRow → List ManifestRow → List ManifestRow × Nat
  | m, [] => (m, 0)
  | m, x :: xs =>
      if m.any (fun row => row.file_path = x.file_path) then insertOrIgnore m xs
      else
        let res := insertOrIgnore (m ++ [x]) xs
        (res.1, res.2 + 1)

/-- The unconditional `UPDATE manifest SET last_seen = CURRENT_TIMESTAMP
WHERE file_path IN paths` issued by `bulk_upsert` after the insert
(`bootstrap/database/repository.py` lines 74-80). -/
def refreshLastSeen (m : List ManifestRow) (paths : List String) (now : Nat) :
    List ManifestRow :=
  m.map fun r =>
    if r.file_path ∈ paths then { r with last_seen := now } else r

/-- `ManifestRepository.bulk_upsert` (`bootstrap/database/repository.py`
lines 38-111).  Empty input returns `(0, 0)` untouched; `dbFail` models an
`SQLAlchemyError` anywhere inside the transaction, in which case
`session.rollback()` leaves the manifest unchanged and a `DatabaseError`
is raised; otherwise the `INSERT OR IGNORE` and the `last_seen` refresh
commit together and the call returns
`(inserted, len(records) - inserted)`. -/
def bulk_upsert (m records : List ManifestRow) (dbFail : Bool) (now : Nat) :
    List ManifestRow × Except String (Nat × Nat) :=
  if records.isEmpty then (m, .ok (0, 0))
  else if dbFail then (m, .error "Database error during bulk upsert")
  else
    let ins := insertOrIgnore m records
    let m2 := refreshLastSeen ins.1 (records.map (fun x => x.file_path)) now
    (m2, .ok (ins.2, records.length - ins.2))

/-- A freshly discovered record whose path is not yet in the manifest. -/
def c3NewRec : ManifestRow :=
  { file_path := "/share/c.txt"
    file_name := "c.txt"
    parent_dir := "/share"
    size := some 7
    status := "discovered"
    last_seen := 3 }

/-- A re-scan record for the path of `completedFileRow`, carrying different
discovery fields: `bulk_upsert` must skip it without overwriting the
existing row. -/
def c3DupRec : ManifestRow :=
  { completedFileRow with
    status := "pending"
    raw_acl := some "acl-from-rescan"
    last_seen := 4 }

/-- The checkpoint document `{offset, batch_num, total_processed,
total_failed, timestamp}` (`ingestion/checkpoint.py`, `save`).  The
timestamp is irrelevant to `load` and omitted. -/
structure Checkpoint where
  offset : Nat
  batch_num : Nat
  total_processed : Nat
  total_failed : Nat
deriving Repr, DecidableEq

/-- What `CheckpointManager.load` can find on disk: no file, a file whose
content is not valid JSON (`json.JSONDecodeError`), a file that fails to
read for any other reason (the `except Exception` arm), or a valid
document. -/
inductive CheckpointFile where
  | missing
  | malformed
  | unreadable (msg : String)
  | valid (data : Checkpoint)
deriving Repr, DecidableEq

/-- `CheckpointManager.load` (`ingestion/checkpoint.py` lines 22-47): a
missing file returns `None`; `json.JSONDecodeError` is caught, logged and
returns `None`; any other exception is caught, logged and returns `None`;
only a valid document is returned.  The function is total: it never
raises. -/
def CheckpointManager.load : CheckpointFile → Option Checkpoint
  | .missing => none
  | .malformed => none
  | .unreadable _ => none
  | .valid d => some d

/-- `ACLResult` (`bootstrap/discovery/acl_extractor.py` lines 17-23). -/
structure ACLResult where
  raw_acl : Option String := none
  captured : Bool := false
  method : String := "unknown"
  error : Option String := none
deriving Repr, DecidableEq

/-- Outcome of the `getfacl` subprocess attempted by
`GetfaclACLExtractor._try_getfacl`: not on Linux, binary missing
(`FileNotFoundError`), another spawn exception, timeout, or an exit with
decoded-and-stripped stdout/stderr. -/
inductive GetfaclOutcome where
  | notLinux (system : String)
  | spawnFileNotFound
  | spawnError (msg : String)
  | timeout
  | exited (code : Int) (stdout stderr : String)
deriving Repr, DecidableEq

/-- `GetfaclACLExtractor._try_getfacl` (`acl_extractor.py` lines 74-146).
Timeouts are modelled as abstract `Nat` seconds. -/
def tryGetfacl (timeout : Nat) : GetfaclOutcome → ACLResult
  | .notLinux sys =>
      { captured := false, method := "getfacl",
        error := some s!"getfacl not available on {sys}" }
  | .spawnFileNotFound =>
      { captured := false, method := "getfacl",
        error := some "getfacl command not found" }
  | .spawnError msg =>
      { captured := false, method := "getfacl", error := some msg }
  | .timeout =>
      { captured := false, method := "getfacl",
        error := some s!"Timeout after {timeout}s" }
  | .exited code out err =>
      if code = 0 then
        { raw_acl := some out, captured := true, method := "getfacl" }
      else
        { captured := false, method := "getfacl",
          error := some (if err = "" then s!"Exit code {code}" else err) }

/-- Outcome of the stat-based fallback `GetfaclACLExtractor._try_stat`
(`acl_extractor.py` lines 148-210): timeout, an `OSError`/`IOError` caught
inside `_get_stat_info`, an exception caught by the outer handler, or a
successful stat whose field dictionary serializes to the given JSON
string. -/
inductive StatAclOutcome where
  | timeout
  | statError (msg : String)
  | raised (msg : String)
  | ok (json : String)
deriving Repr, DecidableEq

/-- `GetfaclACLExtractor._try_stat` (`acl_extractor.py` lines 148-210). -/
def tryStat (timeout : Nat) : StatAclOutcome → ACLResult
  | .timeout =>
      { captured := false, method := "stat",
        error := some s!"Stat timeout after {timeout}s" }
  | .statError msg =>
      { captured := false, method := "stat", error := some msg }
  | .raised msg =>
      { captured := false, method := "stat", error := some msg }
  | .ok json =>
      { raw_acl := some json, captured := true, method := "stat" }

/-- `GetfaclACLExtractor.extract` (`acl_extractor.py` lines 64-72): try
`getfacl`; when the result is not captured — for any reason, including a
missing `getfacl` binary — fall back to stat. -/
def getfaclExtract (timeout : Nat) (g : GetfaclOutcome) (s : StatAclOutcome) :
    ACLResult :=
  let r := tryGetfacl timeout g
  if r.captured then r else tryStat timeout s

/-- `StatOnlyACLExtractor.extract` (`acl_extractor.py` lines 225-267):
stat with no inner `OSError` handler — every exception lands in the outer
handler — otherwise shaped like the fallback. -/
def statOnlyExtract (timeout : Nat) : StatAclOutcome → ACLResult
  | .timeout =>
      { captured := false, method := "stat",
        error := some s!"Stat timeout after {timeout}s" }
  | .statError msg =>
      { captured := false, method := "stat", error := some msg }
  | .raised msg =>
      { captured := false, method := "stat", error := some msg }
  | .ok json =>
      { raw_acl := some json, captured := true, method := "stat" }

/-- `NoOpACLExtractor.extract` (`acl_extractor.py` lines 281-288). -/
def noopExtract : ACLResult :=
  { raw_acl := none, captured := false, method := "noop",
    error := some "ACL extraction disabled" }

/-- The walker-side `FileRecord` model (`bootstrap/models/file_record.py`
lines 29-45), restricted to the fields the walker writes.  Pydantic
defaults are reproduced; `first_seen`/`last_seen`/`schema_version` are
constants at creation and omitted. -/
structure FileRecordB where
  file_path : String
  file_name : String
  parent_dir : String
  size : Option Nat := none
  mtime : Option Nat := none
  raw_acl : Option String := none
  acl_captured : Bool := false
  status : String := "pending"
  error : Option String := none
  retry_count : Nat := 0
  is_directory : Bool := false
deriving Repr, DecidableEq

/-- `FileRecord.create_skipped` (`bootstrap/models/file_record.py` lines
93-106).  `is_directory` is not passed and keeps its default `false`. -/
def FileRecord.create_skipped (path name parent reason : String) : FileRecordB :=
  { file_path := path
    file_name := name
    parent_dir := parent
    status := "skipped"
    error := some reason }

/-- `FileRecord.create_permission_error` (`bootstrap/models/file_record.py`
lines 76-91). -/
def FileRecord.create_permission_error (path name parent : String)
    (is_directory : Bool) (error_message : String) : FileRecordB :=
  { file_path := path
    file_name := name
    parent_dir := parent
    status := "permission_denied"
    error := some error_message
    is_directory := is_directory }

/-- Outcome of processing one regular file in
`DirectoryWalker._process_file`: the stat call times out, the stat (or any
later step) raises and is caught by the outer handler, or the stat succeeds
and ACL extraction runs with the outcomes `g`/`s`. -/
inductive FileOutcome where
  | statTimeout
  | procError (msg : String)
  | statOk (size mtime : Nat) (g : GetfaclOutcome) (s : StatAclOutcome)
deriving Repr, DecidableEq

/-- `DirectoryWalker._process_file` (`bootstrap/discovery/walker.py` lines
221-296).  The walker calls the module-level `extract_acl`, which always
uses `GetfaclACLExtractor` (`acl_extractor.py` lines 323-337), passing its
own `timeout_seconds` — modelled by `getfaclExtract timeout`.  Every
branch constructs its record with `is_directory := false`. -/
def DirectoryWalker.process_file (timeout : Nat) (path name parent : String) :
    FileOutcome → FileRecordB
  | .statTimeout =>
      { file_path := path
        file_name := name
        parent_dir := parent
        status := "error"
        error := some s!"Stat timeout after {timeout}s"
        is_directory := false }
  | .procError msg =>
      { file_path := path
        file_name := name
        parent_dir := parent
        status := "error"
        error := some s!"Processing error: {msg}"
        is_directory := false }
  | .statOk size mtime g s =>
      let acl := getfaclExtract timeout g s
      { file_path := path
        file_name := name
        parent_dir := parent
        size := some size
        mtime := some mtime
        raw_acl := acl.raw_acl
        acl_captured := acl.captured
        status := if acl.captured then "discovered" else "acl_failed"
        error := if acl.captured then none else acl.error
        is_directory := false }

/-- Parameters accepted by `DirectoryWalker.__init__`
(`bootstrap/discovery/walker.py` lines 20-32). -/
def DirectoryWalker.initParams : List String :=
  ["timeout_seconds", "max_retries"]

/-- Keyword arguments that `BootstrapRunner.run` passes when constructing
the walker (`bootstrap/main.py` lines 97-101), after building the
configured extractor with `create_acl_extractor` on line 94. -/
def BootstrapRunner.walkerKwargs : List String :=
  ["timeout_seconds", "max_retries", "acl_extractor"]

/-! A directory tree as seen by `DirectoryWalker._walk_recursive`
(`bootstrap/discovery/walker.py` lines 79-219).  Each child is classified
the way the entry loop classifies it: a symlink (with an arbitrary target —
possibly an ancestor, forming a cycle in the real filesystem graph), a
subdirectory whose `scandir` either eventually succeeds (`scanOk`) or
exhausts its retries, a regular file with its processing outcome, an entry
of unknown type, or an entry whose classification raises
`PermissionError`/`OSError` (`isFile` records what `entry.is_file()`
reports inside the handler).  The mutually inductive list type keeps the
walk functions structurally recursive, hence total: the embedding itself
witnesses that the walk terminates on every such tree. -/
mutual

/-- A child entry of a directory, as classified by the walker's entry loop. -/
inductive FSEntry where
  | dir (name : String) (scanOk : Bool) (children : FSEntryList)
  | file (name : String) (outcome : FileOutcome)
  | symlink (name : String) (target : String)
  | unknown (name : String)
  | permDenied (name : String) (isFile : Bool) (msg : String)
  | osError (name : String) (isFile : Bool) (msg : String)

/-- List of sibling entries of one directory. -/
inductive FSEntryList where
  | nil
  | cons (e : FSEntry) (es : FSEntryList)

end

mutual

/-- One iteration of the entry loop of `DirectoryWalker._walk_recursive`
(`bootstrap/discovery/walker.py` lines 136-219): symlinks yield exactly one
`skipped` record and are never followed (the `continue` on line 148 fires
before any directory handling, whatever the target); directories are
recursed into but yield no record of their own; files are processed;
unknown entries yield a `skipped` record; `PermissionError`/`OSError`
yield a `permission_denied`-style record for files only. -/
def walkEntry (timeout : Nat) (dirPath : String) : FSEntry → List FileRecordB
  | .symlink name _ =>
      [FileRecord.create_skipped (dirPath ++ "/" ++ name) name dirPath
        "Symlink skipped to prevent cycles"]
  | .dir name scanOk children =>
      if scanOk then walkEntries timeout (dirPath ++ "/" ++ name) children
      else []
  | .file name outcome =>
      [DirectoryWalker.process_file timeout (dirPath ++ "/" ++ name) name dirPath
        outcome]
  | .unknown name =>
      [FileRecord.create_skipped (dirPath ++ "/" ++ name) name dirPath
        "Unknown entry type"]
  | .permDenied name isFile msg =>
      if isFile then
        [FileRecord.create_permission_error (dirPath ++ "/" ++ name) name dirPath
          false s!"Permission denied: {msg}"]
      else []
  | .osError name isFile msg =>
      if isFile then
        [FileRecord.create_permission_error (dirPath ++ "/" ++ name) name dirPath
          false s!"OS error: {msg}"]
      else []

/-- The records emitted for the children of one scanned directory, in
entry order. -/
def walkEntries (timeout : Nat) (dirPath : String) : FSEntryList → List FileRecordB
  | .nil => []
  | .cons e es => walkEntry timeout dirPath e ++ walkEntries timeout dirPath es

end

/-- A small sample tree for witnesses: a scanned directory holding a
symlink, a regular file that stats fine and whose ACL is captured by
`getfacl`, and an unknown entry. -/
def sampleTree : FSEntry :=
  .dir "share" true
    (.cons (.symlink "link" "/share")
      (.cons (.file "a.txt" (.statOk 1024 77 (.exited 0 "user::rw-" "") (.ok "{}")))
        (.cons (.unknown "sock") .nil)))

/-- The fields of an ingestion-side `FileRecord`
(`ingestion/repository.py` lines 9-19) that `process_batch` reads. -/
structure IngFile where
  file_path : String
  file_name : String
  raw_acl : Option String := none
deriving Repr, DecidableEq

/-- An upload response body, restricted to the task-id aliases that
`process_batch` coalesces (`ingestion/processor.py` lines 145-149). -/
structure UploadResp where
  task_id : Option String := none
  task : Option String := none
  id : Option String := none
deriving Repr, DecidableEq

/-- `(response or {}).get("task_id") or .get("task") or .get("id")`
(`ingestion/processor.py` lines 145-149); Python's `or` on `None`. -/
def getTaskId (r : UploadResp) : Option String :=
  (r.task_id.orElse fun _ => r.task).orElse fun _ => r.id

/-- How Python formats `last_error` (possibly `None`) into the final
retry-exhaustion message. -/
def errStr : Option String → String
  | none => "None"
  | some e => e

/-- One recorded call of `update_ingestion_status` made by the processor:
`(file_path, status, error)`. -/
structure StatusUpdate where
  path : String
  status : String
  error : Option String := none
deriving Repr, DecidableEq

/-- The retry loop of `IngestionProcessor._upload_with_retry`
(`ingestion/processor.py` lines 180-224), unrolled on the number of
remaining attempts.  `attempts i` is the outcome of the `i`-th call of
`IngestionClient.upload_documents` (an `IngestionError` message or a
response).  The second component collects the backoff delays slept:
`retry_delay * 2 ^ attempt`, slept only when another attempt remains. -/
def uploadAttempts (attempts : Nat → Except String UploadResp)
    (maxRetries retryDelay : Nat) :
    Nat → Nat → Option String → List Nat → Except String UploadResp × List Nat
  | 0, _, lastError, delays =>
      (.error s!"Upload failed after {maxRetries} attempts: {errStr lastError}",
        delays)
  | remaining + 1, i, _, delays =>
      match attempts i with
      | .ok r => (.ok r, delays)
      | .error e =>
          if i < maxRetries - 1 then
            uploadAttempts attempts maxRetries retryDelay remaining (i + 1)
              (some e) (delays ++ [retryDelay * 2 ^ i])
          else
            uploadAttempts attempts maxRetries retryDelay remaining (i + 1)
              (some e) delays

/-- `IngestionProcessor._upload_with_retry`: run at most `max_retries`
attempts starting from attempt 0 with no previous error and no sleeps. -/
def uploadWithRetry (attempts : Nat → Except String UploadResp)
    (maxRetries retryDelay : Nat) : Except String UploadResp × List Nat :=
  uploadAttempts attempts maxRetries retryDelay maxRetries 0 none []

/-- The surviving records of a batch (`existing_files` in
`IngestionProcessor.process_batch`): not already present on the server by
base name, and present on the local disk. -/
def survivors (existingDocs : List String) (fileExists : String → Bool)
    (files : List IngFile) : List IngFile :=
  (files.filter fun f => !decide (f.file_name ∈ existingDocs)).filter
    fun f => fileExists f.file_path

/-- `IngestionProcessor.process_batch` (`ingestion/processor.py` lines
69-178), returning the sequence of `update_ingestion_status` calls it
issues together with its `(successful, failed)` result.  `existingDocs` is
the server-side dedup set, `fileExists` the local disk check
(`IngestionRepository.verify_file_exists`), `attempts` the upload
outcomes, and `poll` the outcome of `poll_task_status` (error message of
the raised `IngestionError`, or an abstract response body). -/
def process_batch (existingDocs : List String) (fileExists : String → Bool)
    (maxRetries retryDelay : Nat) (attempts : Nat → Except String UploadResp)
    (poll : String → Except String Nat) (files : List IngFile) :
    List StatusUpdate × List String × List (String × String) :=
  let skipped := files.filter fun f => decide (f.file_name ∈ existingDocs)
  let toUpload := files.filter fun f => !decide (f.file_name ∈ existingDocs)
  let updates0 := skipped.map fun f =>
    ({ path := f.file_path, status := "completed" } : StatusUpdate)
  let successful0 := skipped.map fun f => f.file_path
  if toUpload.isEmpty then (updates0, successful0, [])
  else
    let updates1 := updates0 ++ toUpload.map fun f =>
      ({ path := f.file_path, status := "ingesting" } : StatusUpdate)
    let existing := toUpload.filter fun f => fileExists f.file_path
    let missing := toUpload.filter fun f => !fileExists f.file_path
    let updates2 := updates1 ++ missing.map fun f =>
      ({ path := f.file_path, status := "failed",
         error := some "File not found on disk" } : StatusUpdate)
    let failed0 := missing.map fun f => (f.file_path, "File not found")
    if existing.isEmpty then (updates2, successful0, failed0)
    else
      match (uploadWithRetry attempts maxRetries retryDelay).1 with
      | .error e =>
          (updates2 ++ existing.map fun f =>
            ({ path := f.file_path, status := "failed", error := some e } :
              StatusUpdate),
            successful0,
            failed0 ++ existing.map fun f => (f.file_path, e))
      | .ok resp =>
          match getTaskId resp with
          | none =>
              (updates2 ++ existing.map fun f =>
                ({ path := f.file_path, status := "completed" } : StatusUpdate),
                successful0 ++ existing.map fun f => f.file_path,
                failed0)
          | some tid =>
              match poll tid with
              | .ok _ =>
                  (updates2 ++ existing.map fun f =>
                    ({ path := f.file_path, status := "completed" } :
                      StatusUpdate),
                    successful0 ++ existing.map fun f => f.file_path,
                    failed0)
              | .error e =>
                  (updates2 ++ existing.map fun f =>
                    ({ path := f.file_path, status := "failed",
                       error := some e } : StatusUpdate),
                    successful0,
                    failed0 ++ existing.map fun f => (f.file_path, e))

/-- One iteration's input of the polling loop of
`IngestionClient.poll_task_status` (`ingestion/client.py` lines 311-366):
either the `requests.get` call raised (a transient polling error), or a
response arrived carrying a `state` string, an abstract body id, and the
elapsed seconds `time.time() - start_time` observed by this iteration. -/
inductive PollEvent where
  | err
  | resp (state : String) (body : Nat) (elapsed : Nat)
deriving Repr, DecidableEq

/-- The typed failures `poll_task_status` can raise. -/
inductive PollError where
  | retriesExceeded
  | taskFailed (body : Nat)
  | taskUnknown (body : Nat)
  | timedOut
deriving Repr, DecidableEq

/-- The polling loop of `IngestionClient.poll_task_status`
(`ingestion/client.py` lines 310-366), driven by the list of iteration
inputs.  `retries` starts at 1 and is never reset; a transient error with
`retries > 10` surfaces, otherwise the loop continues with `retries + 1`.
A response dispatches on `state`: `FINISHED` returns the body (with its
`failed_documents` list), `FAILED` and `UNKNOWN` raise typed errors, any
other state is in-progress — it raises a timeout error when the elapsed
time exceeds `poll_timeout` and otherwise sleeps and continues.  `none`
means the event list ran out while the loop would still be polling. -/
def poll_task_status (pollTimeout : Nat) (retries : Nat) :
    List PollEvent → Option (Except PollError (String × Nat))
  | [] => none
  | .err :: rest =>
      if retries > 10 then some (.error .retriesExceeded)
      else poll_task_status pollTimeout (retries + 1) rest
  | .resp st body elapsed :: rest =>
      if st = "FINISHED" then some (.ok (st, body))
      else if st = "FAILED" then some (.error (.taskFailed body))
      else if st = "UNKNOWN" then some (.error (.taskUnknown body))
      else if elapsed > pollTimeout then some (.error .timedOut)
      else poll_task_status pollTimeout retries rest

/-- Number of transient polling errors in an event list. -/
def countErr : List PollEvent → Nat
  | [] => 0
  | .err :: rest => countErr rest + 1
  | .resp _ _ _ :: rest => countErr rest

/-- A concrete pending file for the batch-processing witness. -/
def c5File : IngFile :=
  { file_path := "/share/a.txt", file_name := "a.txt" }

/-- C1 (amended): rows returned by `get_pending_files` satisfy the WHERE
clause — discovery status `discovered`, ingestion status null/pending/failed,
hence never `completed` — the result is sorted by `file_path`, and pagination
is exactly drop `offset` / take `batch_size` of the sorted filtered rows. -/
theorem get_pending_files_filters_sorts_paginates
    (manifest : List ManifestRow) (b o : Nat) :
    (∀ r ∈ get_pending_files manifest b o,
        r.status = "discovered" ∧
        (r.ingestion_status = none ∨ r.ingestion_status = some "pending" ∨
          r.ingestion_status = some "failed") ∧
        r.ingestion_status ≠ some "completed") ∧
    List.Sorted pathLE (get_pending_files manifest b o) ∧
    get_pending_files manifest b o =
      (((manifest.filter pendingWhere).insertionSort pathLE).drop o).take b := by
  refine ⟨?_, ?_, rfl⟩
  · intro r hr
    have hmem : r ∈ (manifest.filter pendingWhere).insertionSort pathLE :=
      List.mem_of_mem_drop (List.mem_of_mem_take hr)
    have hfilter : r ∈ manifest.filter pendingWhere :=
      (List.perm_insertionSort pathLE _).subset hmem
    have hp : pendingWhere r = true := List.of_mem_filter hfilter
    unfold pendingWhere at hp
    simp only [Bool.and_eq_true, Bool.or_eq_true, decide_eq_true_eq] at hp
    obtain ⟨h1, h2⟩ := hp
    refine ⟨h1, ?_, ?_⟩
    · rcases h2 with (h | h) | h
      · exact Or.inl h
      · exact Or.inr (Or.inl h)
      · exact Or.inr (Or.inr h)
    · intro hc
      rcases h2 with (h | h) | h <;> rw [hc] at h <;> simp at h
  · have hs : List.Sorted pathLE ((manifest.filter pendingWhere).insertionSort pathLE) :=
      List.sorted_insertionSort pathLE _
    exact ((hs.drop).take)

/-- Witness for C1 (amended), at the concrete two-row manifest
`[completedFileRow, pendingFileRow]` with batch size 1, offset 0: the
returned row is `pendingFileRow`, and the theorem's guarantees hold for it. -/
theorem get_pending_files_filters_sorts_paginates_witness :
    pendingFileRow ∈ get_pending_files [completedFileRow, pendingFileRow] 1 0 ∧
    pendingFileRow.status = "discovered" ∧
    (pendingFileRow.ingestion_status = none ∨
      pendingFileRow.ingestion_status = some "pending" ∨
      pendingFileRow.ingestion_status = some "failed") ∧
    pendingFileRow.ingestion_status ≠ some "completed" := by
  have hmem : pendingFileRow ∈ get_pending_files [completedFileRow, pendingFileRow] 1 0 := by
    decide
  exact ⟨hmem,
    (get_pending_files_filters_sorts_paginates [completedFileRow, pendingFileRow] 1 0).1
      pendingFileRow hmem⟩

/-- Counterexample to C1 as stated: a manifest whose only row is a directory
row with discovery status `discovered` and null ingestion status.  The query
returns it even though `is_directory = true`, because the SQL in
`get_pending_files` has no `is_directory` filter. -/
theorem get_pending_files_returns_directory_counterexample :
    get_pending_files [discoveredDirRow] 1 0 = [discoveredDirRow] ∧
    discoveredDirRow.is_directory = true := by
  exact ⟨by decide, rfl⟩

/-- Helper: where `ingested_at` can come from.  A row of
`applyUpdates manifest calls` with non-null `ingested_at` either descends
from a row of `manifest` (same path) that already had `ingested_at` set, or
some call of the sequence marked its path `completed` (only the
`status = 'completed'` branch of the CASE expression writes a fresh
timestamp; every other branch keeps the stored value). -/
theorem applyUpdates_ingested_at_source (cs : List UpdateCall) :
    ∀ manifest : List ManifestRow, ∀ r ∈ applyUpdates manifest cs,
      r.ingested_at ≠ none →
        (∃ r0 ∈ manifest, r0.file_path = r.file_path ∧ r0.ingested_at ≠ none) ∨
        (∃ c ∈ cs, c.status = "completed" ∧ c.path = r.file_path) := by
  induction cs with
  | nil =>
      intro manifest r hr hing
      exact Or.inl ⟨r, hr, rfl, hing⟩
  | cons c cs ih =>
      intro manifest r hr hing
      have hstep := ih (update_ingestion_status manifest c.path c.status c.error c.now) r hr hing
      rcases hstep with ⟨r0, hr0, hpath, hing0⟩ | ⟨c', hc', hst, hp⟩
      · rcases List.mem_map.mp hr0 with ⟨r1, hr1, himg⟩
        by_cases hmatch : r1.file_path = c.path
        · by_cases hcomp : c.status = "completed"
          · refine Or.inr ⟨c, List.mem_cons_self c cs, hcomp, ?_⟩
            have : r0.file_path = r1.file_path := by
              rw [← himg]; simp [hmatch]
            rw [← hpath, this, hmatch]
          · refine Or.inl ⟨r1, hr1, ?_, ?_⟩
            · have : r0.file_path = r1.file_path := by
                rw [← himg]; simp [hmatch]
              rw [← hpath, this]
            · have : r0.ingested_at = r1.ingested_at := by
                rw [← himg]; simp [hmatch, hcomp]
              rw [← this]; exact hing0
        · have heq : r0 = r1 := by rw [← himg]; simp [hmatch]
          exact Or.inl ⟨r1, hr1, heq ▸ hpath, heq ▸ hing0⟩
      · exact Or.inr ⟨c', List.mem_cons_of_mem c hc', hst, hp⟩

/-- C2 (amended): a call of `update_ingestion_status` touches exactly the
rows whose path matches: it sets the ingestion status, increments
`ingestion_attempts` (from 0 when null), stores the error string, and
assigns `ingested_at = now` when the new status is `completed` while
*retaining the previously stored value* otherwise.  Consequently, starting
from a manifest where no row has `ingested_at` set, a row can end with
`ingested_at` non-null only if some call in the sequence marked its path
`completed` (though a later non-completed call may have overwritten the
status, as the counterexample shows). -/
theorem update_ingestion_status_spec :
    (∀ (m : List ManifestRow) (p s : String) (e : Option String) (n : Nat),
      ∀ r' ∈ update_ingestion_status m p s e n,
        ∃ r ∈ m, r.file_path = r'.file_path ∧
          (r.file_path = p →
            r'.ingestion_status = some s ∧
            r'.ingestion_attempts = some (r.ingestion_attempts.getD 0 + 1) ∧
            r'.ingestion_error = e ∧
            r'.ingested_at = if s = "completed" then some n else r.ingested_at) ∧
          (r.file_path ≠ p → r' = r)) ∧
    (∀ (m : List ManifestRow) (cs : List UpdateCall),
      (∀ r ∈ m, r.ingested_at = none) →
      ∀ r ∈ applyUpdates m cs, r.ingested_at ≠ none →
        ∃ c ∈ cs, c.status = "completed" ∧ c.path = r.file_path) := by
  constructor
  · intro m p s e n r' hr'
    rcases List.mem_map.mp hr' with ⟨r, hr, himg⟩
    refine ⟨r, hr, ?_, ?_, ?_⟩
    · by_cases hmatch : r.file_path = p
      · rw [← himg]; simp [hmatch]
      · rw [← himg]; simp [hmatch]
    · intro hmatch
      rw [← himg]; simp [hmatch]
    · intro hmatch
      rw [← himg]; simp [hmatch]
  · intro m cs hnone r hr hing
    rcases applyUpdates_ingested_at_source cs m r hr hing with ⟨r0, hr0, _, hing0⟩ | h
    · exact absurd (hnone r0 hr0) hing0
    · exact h

/-- Witness for C2 (amended) at the concrete trace `completedThenFailed`
applied to the one-row manifest `[pendingFileRow]`: the final row still has
`ingested_at = some 5`, and the theorem traces it to the `completed` call. -/
theorem update_ingestion_status_spec_witness :
    (∀ r ∈ [pendingFileRow], r.ingested_at = none) ∧
    c2FinalRow ∈ applyUpdates [pendingFileRow] completedThenFailed ∧
    c2FinalRow.ingested_at ≠ none ∧
    (∃ c ∈ completedThenFailed,
      c.status = "completed" ∧ c.path = c2FinalRow.file_path) := by
  refine ⟨by decide, by decide, by decide, ?_⟩
  exact update_ingestion_status_spec.2 [pendingFileRow] completedThenFailed
    (by decide) c2FinalRow (by decide) (by decide)

/-- Counterexample to C2 as stated: after the call sequence
`completed` (time 5) then `failed` (time 7) on a fresh row, the manifest
contains a row with `ingested_at` non-null whose ingestion status is not
`completed` — the CASE expression keeps the old `ingested_at` instead of
clearing it on non-completed updates. -/
theorem update_ingestion_status_invariant_counterexample :
    ∃ r ∈ applyUpdates [pendingFileRow] completedThenFailed,
      r.ingested_at ≠ none ∧ r.ingestion_status ≠ some "completed" := by
  decide

/-- Helper: `INSERT OR IGNORE` only appends rows — the prior table contents
are untouched and the reported `rowcount` is exactly the number of appended
rows, which never exceeds the number of presented records. -/
theorem insertOrIgnore_eq_append (xs : List ManifestRow) :
    ∀ m : List ManifestRow, ∃ new : List ManifestRow,
      insertOrIgnore m xs = (m ++ new, new.length) ∧ new.length ≤ xs.length := by
  induction xs with
  | nil =>
      intro m
      exact ⟨[], by simp [insertOrIgnore], by simp⟩
  | cons x xs ih =>
      intro m
      by_cases h : m.any (fun row => row.file_path = x.file_path)
      · obtain ⟨new, heq, hle⟩ := ih m
        refine ⟨new, ?_, Nat.le_succ_of_le hle⟩
        simpa [insertOrIgnore, h] using heq
      · obtain ⟨new, heq, hle⟩ := ih (m ++ [x])
        refine ⟨x :: new, ?_, by simpa using Nat.succ_le_succ hle⟩
        have hstep : insertOrIgnore m (x :: xs) =
            ((insertOrIgnore (m ++ [x]) xs).1, (insertOrIgnore (m ++ [x]) xs).2 + 1) := by
          simp [insertOrIgnore, h]
        rw [hstep, heq]
        simp

/-- Helper: after `INSERT OR IGNORE`, every presented path has a row in the
table (it was either already there — the conflict case — or was just
inserted). -/
theorem insertOrIgnore_covers (xs : List ManifestRow) :
    ∀ m : List ManifestRow, ∀ p ∈ xs.map (fun x => x.file_path),
      ∃ row ∈ (insertOrIgnore m xs).1, row.file_path = p := by
  induction xs with
  | nil => intro m p hp; simp at hp
  | cons x xs ih =>
      intro m p hp
      rcases List.mem_map.mp hp with ⟨y, hy, hyp⟩
      by_cases h : m.any (fun row => row.file_path = x.file_path)
      · have hres : insertOrIgnore m (x :: xs) = insertOrIgnore m xs := by
          simp [insertOrIgnore, h]
        rw [hres]
        rcases List.mem_cons.mp hy with hy | hy
        · obtain ⟨row, hrow, hrp⟩ := List.any_eq_true.mp h
          obtain ⟨new, heq, -⟩ := insertOrIgnore_eq_append xs m
          refine ⟨row, ?_, ?_⟩
          · rw [heq]; exact List.mem_append_left _ hrow
          · rw [← hyp, hy]
            exact of_decide_eq_true hrp
        · exact ih m p (List.mem_map.mpr ⟨y, hy, hyp⟩)
      · have hres : (insertOrIgnore m (x :: xs)).1 = (insertOrIgnore (m ++ [x]) xs).1 := by
          simp [insertOrIgnore, h]
        rw [hres]
        rcases List.mem_cons.mp hy with hy | hy
        · obtain ⟨new, heq, -⟩ := insertOrIgnore_eq_append xs (m ++ [x])
          refine ⟨x, ?_, by rw [← hyp, hy]⟩
          rw [heq]
          exact List.mem_append_left _ (List.mem_append_right _ (List.mem_singleton.mpr rfl))
        · exact ih (m ++ [x]) p (List.mem_map.mpr ⟨y, hy, hyp⟩)

/-- C3: `bulk_upsert` is atomic per call — on a database failure the session
rolls back and the manifest is unchanged while a `DatabaseError` surfaces —
and on the committed path it never overwrites the fields of a row that
already exists for a presented path (only `last_seen` may change), refreshes
`last_seen = now` for every presented path (newly inserted or skipped) in
the same transaction, and returns `(inserted, len(records) - inserted)`
where `inserted` is the number of rows actually added. -/
theorem bulk_upsert_spec (m records : List ManifestRow) (now : Nat) :
    ((bulk_upsert m records true now).1 = m ∧
      (records ≠ [] → (bulk_upsert m records true now).2 =
        Except.error "Database error during bulk upsert")) ∧
    (∃ inserted m',
      bulk_upsert m records false now =
        (m', Except.ok (inserted, records.length - inserted)) ∧
      inserted ≤ records.length ∧
      inserted + (records.length - inserted) = records.length ∧
      m'.length = m.length + inserted ∧
      (∀ r ∈ m, ∃ r' ∈ m', r'.file_path = r.file_path ∧
        r' = { r with last_seen := r'.last_seen }) ∧
      (∀ r' ∈ m',
        r'.file_path ∈ records.map (fun x => x.file_path) → r'.last_seen = now) ∧
      (∀ p ∈ records.map (fun x => x.file_path),
        ∃ r' ∈ m', r'.file_path = p ∧ r'.last_seen = now)) := by
  constructor
  · cases records with
    | nil => exact ⟨by simp [bulk_upsert], fun h => absurd rfl h⟩
    | cons x xs => exact ⟨by simp [bulk_upsert], fun _ => by simp [bulk_upsert]⟩
  · cases hrec : records with
    | nil =>
        refine ⟨0, m, by simp [bulk_upsert], by simp, by simp, by simp, ?_, ?_, ?_⟩
        · intro r hr
          exact ⟨r, hr, rfl, rfl⟩
        · intro r' _ hp
          simp at hp
        · intro p hp
          simp at hp
    | cons x xs =>
        obtain ⟨new, hins, hle⟩ := insertOrIgnore_eq_append (x :: xs) m
        have hne : ((x :: xs : List ManifestRow).isEmpty) = false := rfl
        have hbu : bulk_upsert m (x :: xs) false now =
            (refreshLastSeen (m ++ new) ((x :: xs).map (fun y => y.file_path)) now,
              Except.ok (new.length, (x :: xs).length - new.length)) := by
          simp only [bulk_upsert, hne, Bool.false_eq_true, if_false, hins]
        refine ⟨new.length,
          refreshLastSeen (m ++ new) ((x :: xs).map (fun y => y.file_path)) now,
          hbu, hle, Nat.add_sub_cancel' hle, ?_, ?_, ?_, ?_⟩
        · simp [refreshLastSeen]
        · intro r hr
          have hmem : (if r.file_path ∈ (x :: xs).map (fun y => y.file_path)
                then { r with last_seen := now } else r) ∈
              refreshLastSeen (m ++ new) ((x :: xs).map (fun y => y.file_path)) now :=
            List.mem_map_of_mem _ (List.mem_append_left _ hr)
          by_cases hc : r.file_path ∈ (x :: xs).map (fun y => y.file_path)
          · rw [if_pos hc] at hmem
            exact ⟨{ r with last_seen := now }, hmem, rfl, rfl⟩
          · rw [if_neg hc] at hmem
            exact ⟨r, hmem, rfl, rfl⟩
        · intro r' hr' hp
          rcases List.mem_map.mp hr' with ⟨r0, -, himg⟩
          have himg' : r' = if r0.file_path ∈ (x :: xs).map (fun y => y.file_path)
              then { r0 with last_seen := now } else r0 := himg.symm
          by_cases hc : r0.file_path ∈ (x :: xs).map (fun y => y.file_path)
          · rw [himg', if_pos hc]
          · rw [himg', if_neg hc] at hp
            exact absurd hp hc
        · intro p hp
          obtain ⟨row, hrow, hrp⟩ := insertOrIgnore_covers (x :: xs) m p hp
          rw [hins] at hrow
          have hc : row.file_path ∈ (x :: xs).map (fun y => y.file_path) := by
            rw [hrp]; exact hp
          have hmem : (if row.file_path ∈ (x :: xs).map (fun y => y.file_path)
                then { row with last_seen := now } else row) ∈
              refreshLastSeen (m ++ new) ((x :: xs).map (fun y => y.file_path)) now :=
            List.mem_map_of_mem _ hrow
          rw [if_pos hc] at hmem
          exact ⟨{ row with last_seen := now }, hmem, hrp, rfl⟩

/-- Witness for C3 at the one-row manifest `[completedFileRow]` and the
two-record batch `[c3NewRec, c3DupRec]` (one fresh path, one conflicting
path) at time 9: on failure the manifest is unchanged and the error
surfaces; on success the pre-existing row keeps all fields but `last_seen`. -/
theorem bulk_upsert_spec_witness :
    (bulk_upsert [completedFileRow] [c3NewRec, c3DupRec] true 9).1 =
      [completedFileRow] ∧
    (bulk_upsert [completedFileRow] [c3NewRec, c3DupRec] true 9).2 =
      Except.error "Database error during bulk upsert" ∧
    (∃ r' ∈ (bulk_upsert [completedFileRow] [c3NewRec, c3DupRec] false 9).1,
      r'.file_path = completedFileRow.file_path ∧
      r' = { completedFileRow with last_seen := r'.last_seen } ∧
      r'.last_seen = 9) := by
  obtain ⟨⟨h1, h2⟩, hsucc⟩ :=
    bulk_upsert_spec [completedFileRow] [c3NewRec, c3DupRec] 9
  refine ⟨h1, h2 (by simp), ?_⟩
  obtain ⟨inserted, m', heq, -, -, -, hpres, hfresh, -⟩ := hsucc
  obtain ⟨r', hr', hpath, hkeep⟩ :=
    hpres completedFileRow (List.mem_singleton.mpr rfl)
  refine ⟨r', by rw [heq]; exact hr', hpath, hkeep, ?_⟩
  refine hfresh r' hr' ?_
  rw [hpath]
  simp [completedFileRow, c3DupRec, c3NewRec]

/-- C9: `CheckpointManager.load` treats a file with invalid JSON exactly
like a missing file — both give `None` ("no checkpoint") — and is total
(every disk condition, including arbitrary read errors, maps to a value;
nothing propagates as an exception).  Only a valid document loads. -/
theorem checkpoint_load_malformed_is_no_checkpoint :
    CheckpointManager.load .malformed = none ∧
    CheckpointManager.load .missing = none ∧
    CheckpointManager.load .malformed = CheckpointManager.load .missing ∧
    (∀ msg, CheckpointManager.load (.unreadable msg) = none) ∧
    (∀ d, CheckpointManager.load (.valid d) = some d) :=
  ⟨rfl, rfl, rfl, fun _ => rfl, fun _ => rfl⟩

/-- C7: every extractor strategy returns an `ACLResult` on every outcome
(exceptions are converted to results, never propagated): any uncaptured
result carries an error string.  In the composite `getfacl`+stat strategy
a missing `getfacl` binary (`FileNotFoundError`) is not surfaced — the
result is exactly the stat fallback's, and when stat succeeds the
final result is captured with no error at all. -/
theorem acl_extract_total_and_silent_downgrade :
    (∀ (t : Nat) (g : GetfaclOutcome) (s : StatAclOutcome),
      (getfaclExtract t g s).captured = true ∨
        (getfaclExtract t g s).error ≠ none) ∧
    (∀ (t : Nat) (s : StatAclOutcome),
      getfaclExtract t .spawnFileNotFound s = tryStat t s) ∧
    (∀ (t : Nat) (j : String),
      getfaclExtract t .spawnFileNotFound (.ok j) =
        { raw_acl := some j, captured := true, method := "stat",
          error := none }) ∧
    (∀ (t : Nat) (o : StatAclOutcome),
      (statOnlyExtract t o).captured = true ∨
        (statOnlyExtract t o).error ≠ none) ∧
    noopExtract.captured = false ∧
    noopExtract.error = some "ACL extraction disabled" := by
  refine ⟨?_, ?_, ?_, ?_, rfl, rfl⟩
  · intro t g s
    cases g with
    | exited code out err =>
        by_cases h : code = 0
        · left; simp [getfaclExtract, tryGetfacl, h]
        · cases s <;> simp [getfaclExtract, tryGetfacl, tryStat, h]
    | notLinux sys => cases s <;> simp [getfaclExtract, tryGetfacl, tryStat]
    | spawnFileNotFound => cases s <;> simp [getfaclExtract, tryGetfacl, tryStat]
    | spawnError msg => cases s <;> simp [getfaclExtract, tryGetfacl, tryStat]
    | timeout => cases s <;> simp [getfaclExtract, tryGetfacl, tryStat]
  · intro t s; rfl
  · intro t j; rfl
  · intro t o; cases o <;> simp [statOnlyExtract]

/-- C4 (code bug): `BootstrapRunner.run` builds the configured extractor
and passes it to `DirectoryWalker` as the keyword `acl_extractor`
(`bootstrap/main.py` lines 94-101), but `DirectoryWalker.__init__` accepts
no such parameter (`walker.py` lines 20-32) — the call raises `TypeError` —
and `_process_file` hard-codes the module-level `extract_acl`, which always
uses the `getfacl`+stat composite.  The status mapping itself behaves as
claimed, but against the hard-coded composite: captured → `discovered` with
the extracted `raw_acl`, not captured → `acl_failed` with the extractor's
error string; a configured no-op extractor (never captured) could not
produce `discovered` rows, unlike what the walker actually does. -/
theorem walker_ignores_configured_acl_extractor :
    BootstrapRunner.walkerKwargs.contains "acl_extractor" = true ∧
    DirectoryWalker.initParams.contains "acl_extractor" = false ∧
    (∀ (t : Nat) (path name parent : String) (size mtime : Nat)
        (g : GetfaclOutcome) (s : StatAclOutcome),
      (DirectoryWalker.process_file t path name parent
          (.statOk size mtime g s)).status =
        (if (getfaclExtract t g s).captured then "discovered"
          else "acl_failed") ∧
      (DirectoryWalker.process_file t path name parent
          (.statOk size mtime g s)).raw_acl = (getfaclExtract t g s).raw_acl ∧
      (DirectoryWalker.process_file t path name parent
          (.statOk size mtime g s)).error =
        (if (getfaclExtract t g s).captured then none
          else (getfaclExtract t g s).error)) ∧
    noopExtract.captured = false := by
  refine ⟨by decide, by decide, ?_, rfl⟩
  intro t path name parent size mtime g s
  exact ⟨rfl, rfl, rfl⟩

/-- C6: for a symlink entry the walker emits exactly one record — a
`skipped` record with `is_directory = false` carrying the cycle-prevention
reason — and the result does not depend on the link target at all (the
target is quantified on the left and absent on the right): the walker
never recurses into or follows a symlink, so a symlink to an ancestor
cannot make the (total, structurally recursive) walk diverge. -/
theorem walker_symlink_single_skipped_record (t : Nat)
    (dirPath name target : String) :
    walkEntry t dirPath (.symlink name target) =
      [FileRecord.create_skipped (dirPath ++ "/" ++ name) name dirPath
        "Symlink skipped to prevent cycles"] ∧
    (walkEntry t dirPath (.symlink name target)).length = 1 ∧
    (FileRecord.create_skipped (dirPath ++ "/" ++ name) name dirPath
      "Symlink skipped to prevent cycles").status = "skipped" ∧
    (FileRecord.create_skipped (dirPath ++ "/" ++ name) name dirPath
      "Symlink skipped to prevent cycles").is_directory = false ∧
    (FileRecord.create_skipped (dirPath ++ "/" ++ name) name dirPath
      "Symlink skipped to prevent cycles").error =
        some "Symlink skipped to prevent cycles" :=
  ⟨rfl, rfl, rfl, rfl, rfl⟩

/-- Helper: joint strong induction on size showing every record emitted by
the walk has `is_directory = false` — the symlink/unknown `skipped`
records, the per-file permission/OS-error records, and every record built
by `_process_file` all set it to `false`, and directories only recurse. -/
theorem walk_records_not_directory_aux (n : Nat) :
    (∀ e : FSEntry, sizeOf e ≤ n → ∀ t d r, r ∈ walkEntry t d e →
      r.is_directory = false) ∧
    (∀ es : FSEntryList, sizeOf es ≤ n → ∀ t d r, r ∈ walkEntries t d es →
      r.is_directory = false) := by
  induction n using Nat.strong_induction_on with
  | _ n ih =>
    constructor
    · intro e hsize t d r hr
      cases e with
      | dir name scanOk children =>
          cases scanOk with
          | false => simp [walkEntry] at hr
          | true =>
              simp only [walkEntry, if_true] at hr
              have hlt : sizeOf children < sizeOf (FSEntry.dir name true children) := by
                simp
              exact (ih (sizeOf children) (lt_of_lt_of_le hlt hsize)).2 children
                le_rfl t (d ++ "/" ++ name) r hr
      | file name outcome =>
          simp only [walkEntry, List.mem_singleton] at hr
          subst hr
          cases outcome <;> rfl
      | symlink name target =>
          simp only [walkEntry, List.mem_singleton] at hr
          subst hr
          rfl
      | unknown name =>
          simp only [walkEntry, List.mem_singleton] at hr
          subst hr
          rfl
      | permDenied name isFile msg =>
          cases isFile with
          | false => simp [walkEntry] at hr
          | true =>
              simp only [walkEntry, if_true, List.mem_singleton] at hr
              subst hr
              rfl
      | osError name isFile msg =>
          cases isFile with
          | false => simp [walkEntry] at hr
          | true =>
              simp only [walkEntry, if_true, List.mem_singleton] at hr
              subst hr
              rfl
    · intro es hsize t d r hr
      cases es with
      | nil => simp [walkEntries] at hr
      | cons e es =>
          simp only [walkEntries] at hr
          rcases List.mem_append.mp hr with h | h
          · have hlt : sizeOf e < sizeOf (FSEntryList.cons e es) := by
              simp
              omega
            exact (ih (sizeOf e) (lt_of_lt_of_le hlt hsize)).1 e le_rfl t d r h
          · have hlt : sizeOf es < sizeOf (FSEntryList.cons e es) := by
              simp
            exact (ih (sizeOf es) (lt_of_lt_of_le hlt hsize)).2 es le_rfl t d r h

/-- C10: every record yielded by the walk has `is_directory = false`:
directories are recursed into but never emitted, and every constructed
record — skipped, permission/OS error, stat-timeout, processing-error, or
processed file — is built with `is_directory := false`, so the walk stream
feeds no directory rows into the manifest. -/
theorem walk_emits_only_file_rows (t : Nat) (d : String) (e : FSEntry) :
    ∀ r ∈ walkEntry t d e, r.is_directory = false :=
  fun r hr => (walk_records_not_directory_aux (sizeOf e)).1 e le_rfl t d r hr

/-- Witness for C10 at `sampleTree`: the symlink's skipped record is among
the emitted records and the theorem yields `is_directory = false` for it. -/
theorem walk_emits_only_file_rows_witness :
    (FileRecord.create_skipped "/share/link" "link" "/share"
      "Symlink skipped to prevent cycles") ∈ walkEntry 300 "" sampleTree ∧
    (FileRecord.create_skipped "/share/link" "link" "/share"
      "Symlink skipped to prevent cycles").is_directory = false := by
  have hmem : (FileRecord.create_skipped "/share/link" "link" "/share"
      "Symlink skipped to prevent cycles") ∈ walkEntry 300 "" sampleTree := by
    decide
  exact ⟨hmem, walk_emits_only_file_rows 300 "" sampleTree _ hmem⟩

/-- Helper: the polling loop returns a body only from a `FINISHED`
response. -/
theorem poll_ok_only_from_finished (evs : List PollEvent) :
    ∀ pt rtr s b, poll_task_status pt rtr evs = some (.ok (s, b)) →
      s = "FINISHED" := by
  induction evs with
  | nil => intro pt rtr s b h; simp [poll_task_status] at h
  | cons ev rest ih =>
      intro pt rtr s b h
      cases ev with
      | err =>
          rw [poll_task_status] at h
          by_cases hr : rtr > 10
          · rw [if_pos hr] at h; simp at h
          · rw [if_neg hr] at h; exact ih pt (rtr + 1) s b h
      | resp st body elapsed =>
          rw [poll_task_status] at h
          by_cases h1 : st = "FINISHED"
          · rw [if_pos h1] at h
            simp at h
            rw [← h.1, h1]
          · rw [if_neg h1] at h
            by_cases h2 : st = "FAILED"
            · rw [if_pos h2] at h; simp at h
            · rw [if_neg h2] at h
              by_cases h3 : st = "UNKNOWN"
              · rw [if_pos h3] at h; simp at h
              · rw [if_neg h3] at h
                by_cases h4 : elapsed > pt
                · rw [if_pos h4] at h; simp at h
                · rw [if_neg h4] at h; exact ih pt rtr s b h

/-- Helper: a `retriesExceeded` error needs the running retry counter plus
the number of transient errors in the event list to pass 11 — the counter
is bumped once per error and only a check `retries > 10` surfaces it. -/
theorem poll_retries_exceeded_bound (evs : List PollEvent) :
    ∀ pt rtr, poll_task_status pt rtr evs = some (.error .retriesExceeded) →
      12 ≤ countErr evs + rtr := by
  induction evs with
  | nil => intro pt rtr h; simp [poll_task_status] at h
  | cons ev rest ih =>
      intro pt rtr h
      cases ev with
      | err =>
          rw [poll_task_status] at h
          by_cases hr : rtr > 10
          · simp [countErr]; omega
          · rw [if_neg hr] at h
            have := ih pt (rtr + 1) h
            simp [countErr]; omega
      | resp st body elapsed =>
          rw [poll_task_status] at h
          by_cases h1 : st = "FINISHED"
          · rw [if_pos h1] at h; simp at h
          · rw [if_neg h1] at h
            by_cases h2 : st = "FAILED"
            · rw [if_pos h2] at h; simp at h
            · rw [if_neg h2] at h
              by_cases h3 : st = "UNKNOWN"
              · rw [if_pos h3] at h; simp at h
              · rw [if_neg h3] at h
                by_cases h4 : elapsed > pt
                · rw [if_pos h4] at h; simp at h
                · rw [if_neg h4] at h
                  have := ih pt rtr h
                  simp [countErr]; omega

/-- C8: `poll_task_status` returns the response body exactly for a
`FINISHED` state (and only a `FINISHED` response can produce a successful
return); `FAILED` and `UNKNOWN` raise typed errors carrying the body; any
other state is in-progress — it is fatal once the elapsed time exceeds
`poll_timeout` and otherwise just continues the loop; and transient
polling errors are retried under a bounded counter: with at most 10
transient errors the loop never surfaces `retriesExceeded`. -/
theorem poll_task_status_spec :
    (∀ (pt rtr : Nat) (body elapsed : Nat) (rest : List PollEvent),
      poll_task_status pt rtr (.resp "FINISHED" body elapsed :: rest) =
        some (.ok ("FINISHED", body))) ∧
    (∀ (pt rtr : Nat) (body elapsed : Nat) (rest : List PollEvent),
      poll_task_status pt rtr (.resp "FAILED" body elapsed :: rest) =
        some (.error (.taskFailed body))) ∧
    (∀ (pt rtr : Nat) (body elapsed : Nat) (rest : List PollEvent),
      poll_task_status pt rtr (.resp "UNKNOWN" body elapsed :: rest) =
        some (.error (.taskUnknown body))) ∧
    (∀ (pt rtr : Nat) (st : String) (body elapsed : Nat)
        (rest : List PollEvent),
      st ≠ "FINISHED" → st ≠ "FAILED" → st ≠ "UNKNOWN" → elapsed > pt →
      poll_task_status pt rtr (.resp st body elapsed :: rest) =
        some (.error .timedOut)) ∧
    (∀ (pt rtr : Nat) (st : String) (body elapsed : Nat)
        (rest : List PollEvent),
      st ≠ "FINISHED" → st ≠ "FAILED" → st ≠ "UNKNOWN" → elapsed ≤ pt →
      poll_task_status pt rtr (.resp st body elapsed :: rest) =
        poll_task_status pt rtr rest) ∧
    (∀ (pt : Nat) (evs : List PollEvent) (s : String) (b : Nat),
      poll_task_status pt 1 evs = some (.ok (s, b)) → s = "FINISHED") ∧
    (∀ (pt : Nat) (evs : List PollEvent), countErr evs ≤ 10 →
      poll_task_status pt 1 evs ≠ some (.error .retriesExceeded)) := by
  refine ⟨?_, ?_, ?_, ?_, ?_, ?_, ?_⟩
  · intro pt rtr body elapsed rest; simp [poll_task_status]
  · intro pt rtr body elapsed rest; simp [poll_task_status]
  · intro pt rtr body elapsed rest; simp [poll_task_status]
  · intro pt rtr st body elapsed rest h1 h2 h3 h4
    rw [poll_task_status, if_neg h1, if_neg h2, if_neg h3, if_pos h4]
  · intro pt rtr st body elapsed rest h1 h2 h3 h4
    rw [poll_task_status, if_neg h1, if_neg h2, if_neg h3,
      if_neg (Nat.not_lt.mpr h4)]
  · intro pt evs s b h
    exact poll_ok_only_from_finished evs pt 1 s b h
  · intro pt evs hle h
    have := poll_retries_exceeded_bound evs pt 1 h
    omega

/-- Witness for C8 at a concrete event trace (one transient error, one
in-progress response, then `FINISHED`), plus concrete instances of the
in-progress continuation and of the timeout cap. -/
theorem poll_task_status_spec_witness :
    poll_task_status 100 1
      [PollEvent.err, .resp "PENDING" 0 3, .resp "FINISHED" 42 6] =
      some (.ok ("FINISHED", 42)) ∧
    countErr [PollEvent.err, .resp "PENDING" 0 3, .resp "FINISHED" 42 6] ≤ 10 ∧
    poll_task_status 100 1
      [PollEvent.err, .resp "PENDING" 0 3, .resp "FINISHED" 42 6] ≠
      some (.error .retriesExceeded) ∧
    poll_task_status 100 5 [PollEvent.resp "PENDING" 0 3, .resp "FINISHED" 42 6] =
      poll_task_status 100 5 [PollEvent.resp "FINISHED" 42 6] ∧
    poll_task_status 100 1 [PollEvent.resp "RUNNING" 7 101] =
      some (.error .timedOut) := by
  refine ⟨rfl, by decide, ?_, ?_, ?_⟩
  · exact poll_task_status_spec.2.2.2.2.2.2 100
      [PollEvent.err, .resp "PENDING" 0 3, .resp "FINISHED" 42 6] (by decide)
  · exact poll_task_status_spec.2.2.2.2.1 100 5 "PENDING" 0 3
      [PollEvent.resp "FINISHED" 42 6] (by decide) (by decide) (by decide)
      (by decide)
  · exact poll_task_status_spec.2.2.2.1 100 1 "RUNNING" 7 101 [] (by decide)
      (by decide) (by decide) (by decide)

/-- Helper: when every attempt up to `max_retries` fails, the retry loop
raises after exactly `max_retries` attempts and the sleeps performed are
`retry_delay * 2 ^ attempt` for attempts `i, i+1, …, max_retries - 2`
(no sleep follows the final attempt). -/
theorem uploadAttempts_all_fail (attempts : Nat → Except String UploadResp)
    (maxRetries retryDelay : Nat) :
    ∀ (remaining i : Nat) (lastErr : Option String) (delays : List Nat),
      remaining + i = maxRetries →
      (∀ j, j < maxRetries → ∃ e, attempts j = Except.error e) →
      (∃ msg,
        (uploadAttempts attempts maxRetries retryDelay remaining i lastErr
          delays).1 = Except.error msg) ∧
      (uploadAttempts attempts maxRetries retryDelay remaining i lastErr
          delays).2 =
        delays ++ (List.range' i (maxRetries - 1 - i)).map
          (fun j => retryDelay * 2 ^ j) := by
  intro remaining
  induction remaining with
  | zero =>
      intro i lastErr delays hinv hfail
      have hi : i = maxRetries := by omega
      refine ⟨⟨s!"Upload failed after {maxRetries} attempts: {errStr lastErr}",
        rfl⟩, ?_⟩
      have hz : maxRetries - 1 - i = 0 := by omega
      simp [uploadAttempts, hz]
  | succ remaining ih =>
      intro i lastErr delays hinv hfail
      have hi : i < maxRetries := by omega
      obtain ⟨e, he⟩ := hfail i hi
      by_cases hlt : i < maxRetries - 1
      · have hstep : uploadAttempts attempts maxRetries retryDelay
            (remaining + 1) i lastErr delays =
            uploadAttempts attempts maxRetries retryDelay remaining (i + 1)
              (some e) (delays ++ [retryDelay * 2 ^ i]) := by
          rw [uploadAttempts, he]
          exact if_pos hlt
        obtain ⟨hfst, hsnd⟩ := ih (i + 1) (some e)
          (delays ++ [retryDelay * 2 ^ i]) (by omega) hfail
        rw [hstep]
        refine ⟨hfst, ?_⟩
        rw [hsnd]
        have hk : maxRetries - 1 - i = (maxRetries - 1 - (i + 1)) + 1 := by
          omega
        rw [hk, List.range'_succ i (maxRetries - 1 - (i + 1)) 1]
        simp
      · have hstep : uploadAttempts attempts maxRetries retryDelay
            (remaining + 1) i lastErr delays =
            uploadAttempts attempts maxRetries retryDelay remaining (i + 1)
              (some e) delays := by
          rw [uploadAttempts, he]
          exact if_neg hlt
        obtain ⟨hfst, hsnd⟩ := ih (i + 1) (some e) delays (by omega) hfail
        rw [hstep]
        refine ⟨hfst, ?_⟩
        rw [hsnd]
        have hz : maxRetries - 1 - i = 0 := by omega
        have hz' : maxRetries - 1 - (i + 1) = 0 := by omega
        simp [hz, hz']

/-- C5: in `process_batch`, when the upload succeeds (and, if the response
carried a task id, the poll returns `FINISHED`), every surviving record of
the batch receives a `completed` status update; when the upload retries are
exhausted, or the poll raises (task `FAILED`/`UNKNOWN` or poll timeout),
every surviving record receives a `failed` update carrying the error
string; and the upload is retried up to `max_retries` times with
exponential backoff `retry_delay * 2 ^ attempt` between attempts. -/
theorem process_batch_spec (existingDocs : List String)
    (fileExists : String → Bool) (maxRetries retryDelay : Nat)
    (attempts : Nat → Except String UploadResp)
    (poll : String → Except String Nat) (files : List IngFile) :
    (∀ resp, (uploadWithRetry attempts maxRetries retryDelay).1 =
        Except.ok resp →
      (getTaskId resp = none ∨
        (∃ tid body, getTaskId resp = some tid ∧ poll tid = Except.ok body)) →
      ∀ f ∈ survivors existingDocs fileExists files,
        ({ path := f.file_path, status := "completed" } : StatusUpdate) ∈
          (process_batch existingDocs fileExists maxRetries retryDelay
            attempts poll files).1) ∧
    (∀ e, (uploadWithRetry attempts maxRetries retryDelay).1 =
        Except.error e →
      ∀ f ∈ survivors existingDocs fileExists files,
        ({ path := f.file_path, status := "failed", error := some e } :
          StatusUpdate) ∈
          (process_batch existingDocs fileExists maxRetries retryDelay
            attempts poll files).1) ∧
    (∀ resp tid e, (uploadWithRetry attempts maxRetries retryDelay).1 =
        Except.ok resp →
      getTaskId resp = some tid → poll tid = Except.error e →
      ∀ f ∈ survivors existingDocs fileExists files,
        ({ path := f.file_path, status := "failed", error := some e } :
          StatusUpdate) ∈
          (process_batch existingDocs fileExists maxRetries retryDelay
            attempts poll files).1) ∧
    ((∀ j, j < maxRetries → ∃ e, attempts j = Except.error e) →
      (∃ msg, (uploadWithRetry attempts maxRetries retryDelay).1 =
        Except.error msg) ∧
      (uploadWithRetry attempts maxRetries retryDelay).2 =
        (List.range (maxRetries - 1)).map (fun j => retryDelay * 2 ^ j)) := by
  refine ⟨?_, ?_, ?_, ?_⟩
  · intro resp hup htask f hf
    have hf' : f ∈ (files.filter fun f =>
        !decide (f.file_name ∈ existingDocs)).filter
        (fun f => fileExists f.file_path) := hf
    have hf2 : f ∈ files.filter fun f => !decide (f.file_name ∈ existingDocs) :=
      List.mem_of_mem_filter hf'
    have hne1 : (files.filter fun f =>
        !decide (f.file_name ∈ existingDocs)).isEmpty = false :=
      List.isEmpty_eq_false.mpr (List.ne_nil_of_mem hf2)
    have hne2 : ((files.filter fun f =>
        !decide (f.file_name ∈ existingDocs)).filter
        (fun f => fileExists f.file_path)).isEmpty = false :=
      List.isEmpty_eq_false.mpr (List.ne_nil_of_mem hf')
    rcases htask with hnone | ⟨tid, body, htid, hpoll⟩
    · simp only [process_batch, hne1, hne2, hup, hnone, Bool.false_eq_true,
        if_false]
      exact List.mem_append_right _ (List.mem_map.mpr ⟨f, hf', rfl⟩)
    · simp only [process_batch, hne1, hne2, hup, htid, hpoll,
        Bool.false_eq_true, if_false]
      exact List.mem_append_right _ (List.mem_map.mpr ⟨f, hf', rfl⟩)
  · intro e hup f hf
    have hf' : f ∈ (files.filter fun f =>
        !decide (f.file_name ∈ existingDocs)).filter
        (fun f => fileExists f.file_path) := hf
    have hf2 : f ∈ files.filter fun f => !decide (f.file_name ∈ existingDocs) :=
      List.mem_of_mem_filter hf'
    have hne1 : (files.filter fun f =>
        !decide (f.file_name ∈ existingDocs)).isEmpty = false :=
      List.isEmpty_eq_false.mpr (List.ne_nil_of_mem hf2)
    have hne2 : ((files.filter fun f =>
        !decide (f.file_name ∈ existingDocs)).filter
        (fun f => fileExists f.file_path)).isEmpty = false :=
      List.isEmpty_eq_false.mpr (List.ne_nil_of_mem hf')
    simp only [process_batch, hne1, hne2, hup, Bool.false_eq_true, if_false]
    exact List.mem_append_right _ (List.mem_map.mpr ⟨f, hf', rfl⟩)
  · intro resp tid e hup htid hpoll f hf
    have hf' : f ∈ (files.filter fun f =>
        !decide (f.file_name ∈ existingDocs)).filter
        (fun f => fileExists f.file_path) := hf
    have hf2 : f ∈ files.filter fun f => !decide (f.file_name ∈ existingDocs) :=
      List.mem_of_mem_filter hf'
    have hne1 : (files.filter fun f =>
        !decide (f.file_name ∈ existingDocs)).isEmpty = false :=
      List.isEmpty_eq_false.mpr (List.ne_nil_of_mem hf2)
    have hne2 : ((files.filter fun f =>
        !decide (f.file_name ∈ existingDocs)).filter
        (fun f => fileExists f.file_path)).isEmpty = false :=
      List.isEmpty_eq_false.mpr (List.ne_nil_of_mem hf')
    simp only [process_batch, hne1, hne2, hup, htid, hpoll,
      Bool.false_eq_true, if_false]
    exact List.mem_append_right _ (List.mem_map.mpr ⟨f, hf', rfl⟩)
  · intro hfail
    obtain ⟨hfst, hsnd⟩ := uploadAttempts_all_fail attempts maxRetries
      retryDelay maxRetries 0 none [] (by omega) hfail
    refine ⟨hfst, ?_⟩
    have hgoal : (uploadWithRetry attempts maxRetries retryDelay).2 =
        [] ++ (List.range' 0 (maxRetries - 1 - 0)).map
          (fun j => retryDelay * 2 ^ j) := hsnd
    rw [hgoal]
    simp [List.range_eq_range']

/-- Witness for C5 at a one-file batch that survives dedup and the disk
check, with an upload that succeeds on the first attempt returning task id
`T1` and a poll that reaches `FINISHED`: the file's `completed` update is
issued. -/
theorem process_batch_spec_witness :
    c5File ∈ survivors ["dup.txt"] (fun _ => true) [c5File] ∧
    ({ path := "/share/a.txt", status := "completed" } : StatusUpdate) ∈
      (process_batch ["dup.txt"] (fun _ => true) 3 2
        (fun _ => Except.ok { task_id := some "T1" })
        (fun _ => Except.ok 0) [c5File]).1 := by
  have hmem : c5File ∈ survivors ["dup.txt"] (fun _ => true) [c5File] := by
    decide
  refine ⟨hmem, ?_⟩
  exact (process_batch_spec ["dup.txt"] (fun _ => true) 3 2
      (fun _ => Except.ok { task_id := some "T1" })
      (fun _ => Except.ok 0) [c5File]).1
    { task_id := some "T1" } rfl (Or.inr ⟨"T1", 0, rfl, rfl⟩) c5File hmem
